import Mathlib

/-!
Verification of the Overview→Directive→Execution pipeline of the
MBU_Databehandlingsaftaler robot.

The Python sources are shallowly embedded:
* `robot_framework/subprocesses/queue_upload.py`
  (`clean_instregnr`, `retrieve_changes`, `generate_short_hash`,
  `upload_to_queue`),
* `robot_framework/subprocesses/queue_handling.py`
  (`perform_data_access`, `check_status_change`, `process_element`,
  `enter_organisation`, `handle_elements_for_instregnr`),
* the `queue_upload` branch of `robot_framework/process.py`.

Pandas cells are modelled by `Cell` (a value together with its Python `str`
rendering, or NaN); the Selenium-driven remote portal is modelled by an
explicit environment recording which waits succeed and what the remote
agreement table contains; the MD5 hex digest (an external library function)
is an abstract parameter `md5hex : String → String`.
-/

/-- Python `str.startswith`: the first `p.length` characters of `s` equal `p`. -/
def pyStartsWith (s p : String) : Bool :=
  s.data.take p.data.length == p.data

/-- The decimal digit character for `d` (Python rendering of one digit). -/
def digChar (d : Nat) : Char := Char.ofNat (48 + d)

/-- Decimal digits of `n`, least significant first, with explicit fuel so the
definition is structurally recursive and kernel-evaluable. -/
def natDigitsRevAux : Nat → Nat → List Char
  | 0, _ => []
  | fuel + 1, n =>
    if n < 10 then [digChar n]
    else digChar (n % 10) :: natDigitsRevAux fuel (n / 10)

/-- Python `str(n)` for a natural number: its decimal representation. -/
def natStr (n : Nat) : String := ⟨(natDigitsRevAux (n + 1) n).reverse⟩

/-- Value of a digit list, least significant first (decoder for `natDigitsRevAux`). -/
def valRev : List Char → Nat
  | [] => 0
  | c :: cs => (c.toNat - 48) + 10 * valRev cs

/-- Number of underscore characters in a string. -/
def underscores (s : String) : Nat := s.data.count '_'

/-!
## Data model of `queue_upload.py`

A pandas cell is either a concrete value (identified with its Python `str`
rendering) or NaN.  Rows of the Oversigt spreadsheet carry the five columns
the code touches; the descriptive columns play no role.
-/

/-- A spreadsheet cell: a (string-rendered) value or a missing value (NaN). -/
inductive Cell
  | val (s : String)
  | nan
deriving DecidableEq, Repr

/-- Python `str(cell)`: NaN renders as the string `nan`. -/
def pyStr : Cell → String
  | .val s => s
  | .nan => "nan"

/-- Python `str.strip()`: drop leading and trailing whitespace. -/
def pyStrip (s : String) : String :=
  ⟨(((s.data.dropWhile Char.isWhitespace).reverse).dropWhile Char.isWhitespace).reverse⟩

/-- Pandas `cell == s` (NaN compares unequal to everything). -/
def cellEq (c : Cell) (s : String) : Bool :=
  match c with
  | .val v => v == s
  | .nan => false

/-- Pandas `cell != s` (NaN compares unequal, hence `!=` is true). -/
def cellNe (c : Cell) (s : String) : Bool :=
  match c with
  | .val v => v != s
  | .nan => true

/-- One row of the Oversigt spreadsheet, restricted to the columns used by
`retrieve_changes`. -/
structure Row where
  Instregnr : Cell
  systemNavn : Cell
  serviceNavn : Cell
  status : Cell
  statusaendring : Cell
deriving DecidableEq, Repr

/-- `clean_instregnr`: `str(instregnr).split(".", maxsplit=1)[0]` — everything
before the first dot of the Python string rendering. -/
def clean_instregnr (c : Cell) : String :=
  ⟨(pyStr c).data.takeWhile (fun ch => ch ≠ '.')⟩

/-- `df["Instregnr"] = df["Instregnr"].apply(clean_instregnr)`: the cleaned
column always holds a (non-NaN) string. -/
def cleanRow (r : Row) : Row :=
  { r with Instregnr := Cell.val (clean_instregnr r.Instregnr) }

/-- One record of the lists returned by `retrieve_changes`
(`to_dict(orient="records")` over the four selected columns). -/
structure ChangeRecord where
  Instregnr : String
  systemNavn : String
  serviceNavn : String
  status : String
deriving DecidableEq, Repr

/-- The row filter `(df["statusændring"] == flag) & (df["status"] != target)`. -/
def rowFilter (flag target : String) (r : Row) : Bool :=
  cellEq r.statusaendring flag && cellNe r.status target

/-- Column selection plus `dropna()`: a record is produced only when all four
selected cells are non-NaN. -/
def toRecord (r : Row) : Option ChangeRecord :=
  match r.Instregnr, r.systemNavn, r.serviceNavn, r.status with
  | .val i, .val sy, .val se, .val st => some ⟨i, sy, se, st⟩
  | _, _, _, _ => none

/-- One of the three `filtered_*_df[...].dropna().to_dict(orient="records")`
pipelines of `retrieve_changes`. -/
def selectData (cleaned : List Row) (flag target : String) : List ChangeRecord :=
  (cleaned.filter (rowFilter flag target)).filterMap toRecord

/-- Python `file.split("/")[-1]`, used in the error message of
`retrieve_changes`. -/
def pyBasename (s : String) : String :=
  (s.splitOn "/").getLastD s

/-- `retrieve_changes(base_dir)`, parameterized by the list of
`*Oversigt*.xlsx` files found in the Output directory and by the rows of the
spreadsheet that would be read from the single expected file.  Raising
`ValueError` is modelled by `Except.error`. -/
def retrieve_changes (excel_files : List String) (df : List Row) :
    Except String (List ChangeRecord × List ChangeRecord × List ChangeRecord) :=
  if excel_files.length == 1 then
    let cleaned := df.map cleanRow
    .ok (selectData cleaned "GODKEND" "GODKENDT",
         selectData cleaned "SLET" "SLETTET",
         selectData cleaned "VENT" "VENTER")
  else
    .error ("There should be exactly one Oversigt file in the directory. Delete old files. Files in directory: "
      ++ String.intercalate ", " (excel_files.map pyBasename))

/-!
## `generate_short_hash` and `upload_to_queue`

Python dicts are embedded as insertion-ordered association lists of string
keys and string values (directive payloads only ever hold strings).  The MD5
hex digest of the `hashlib` library is kept abstract as a parameter
`md5hex : String → String`; everything the code adds around it (canonical
sorted-key JSON serialization, truncation, action prefixes, collision
disambiguation) is embedded concretely.
-/

/-- Hex digit character (lower case), as produced by Python. -/
def hexDigitChar (d : Nat) : Char :=
  Char.ofNat (if d < 10 then 48 + d else 87 + d)

/-- Four-hex-digit rendering used by `json.dumps` for non-ASCII escapes. -/
def hex4 (n : Nat) : String :=
  ⟨[hexDigitChar (n / 4096 % 16), hexDigitChar (n / 256 % 16),
    hexDigitChar (n / 16 % 16), hexDigitChar (n % 16)]⟩

/-- `json.dumps` escaping of one character (default `ensure_ascii=True`). -/
def jsonEscChar (c : Char) : String :=
  if c = '"' then "\\\""
  else if c = '\\' then "\\\\"
  else if c.toNat < 32 ∨ c.toNat > 126 then "\\u" ++ hex4 c.toNat
  else String.singleton c

/-- `json.dumps` rendering of a string literal. -/
def jsonQuote (s : String) : String :=
  "\"" ++ String.join (s.data.map jsonEscChar) ++ "\""

/-- `json.dumps` rendering of one `key: value` pair. -/
def jsonPair (p : String × String) : String :=
  jsonQuote p.1 ++ ": " ++ jsonQuote p.2

/-- `json.dumps(d)` for a string-valued dict, in insertion order. -/
def jsonDumps (d : List (String × String)) : String :=
  "\x7b" ++ String.intercalate ", " (d.map jsonPair) ++ "\x7d"

/-- Key comparison used to embed `sort_keys=True`. -/
def keyLe (a b : String × String) : Bool := decide (a.1 ≤ b.1)

/-- `json.dumps(d, sort_keys=True)`: serialization of the key-sorted dict. -/
def jsonDumpsSorted (d : List (String × String)) : String :=
  jsonDumps (d.mergeSort keyLe)

/-- `generate_short_hash(data, length=8)`: the first `length` characters of
the MD5 hex digest of the canonical sorted-key JSON serialization. -/
def generate_short_hash (md5hex : String → String)
    (data : List (String × String)) (length : Nat := 8) : String :=
  ⟨(md5hex (jsonDumpsSorted data)).data.take length⟩

/-- The dict built for one directive record (insertion order of
`retrieve_changes`' column selection). -/
def recordPairs (c : ChangeRecord) : List (String × String) :=
  [("Instregnr", c.Instregnr), ("systemNavn", c.systemNavn),
   ("serviceNavn", c.serviceNavn), ("status", c.status)]

/-- `json.dumps(data)` for one record (payload sent to the queue). -/
def recordJson (c : ChangeRecord) : String := jsonDumps (recordPairs c)

/-- Reference for one record: `f"{action}_{generate_short_hash(data)}"`. -/
def makeReference (md5hex : String → String) (action : String)
    (c : ChangeRecord) : String :=
  action ++ "_" ++ generate_short_hash md5hex (recordPairs c)

/-- The collision-disambiguation loop of `upload_to_queue`:
`for i, reference in enumerate(all_references): if all_references.count(reference) > 1:
all_references[i] = f"{reference}_{i}"` — an in-place update over the live list. -/
def disambiguate (l : List String) : List String :=
  (List.range l.length).foldl
    (fun acc i =>
      let r := acc.getD i ""
      if 1 < acc.count r then acc.set i (r ++ "_" ++ natStr i) else acc) l

/-- The references of all three batches before duplicate handling. -/
def initialReferences (md5hex : String → String)
    (approve_data delete_data wait_data : List ChangeRecord) : List String :=
  approve_data.map (makeReference md5hex "Godkend")
    ++ delete_data.map (makeReference md5hex "Slet")
    ++ wait_data.map (makeReference md5hex "Vent")

/-- The references actually handed to the queue: duplicates are rewritten by
`disambiguate` only when `len(all_references) != len(set(all_references))`. -/
def finalReferences (md5hex : String → String)
    (approve_data delete_data wait_data : List ChangeRecord) : List String :=
  let all := initialReferences md5hex approve_data delete_data wait_data
  if all.Nodup then all else disambiguate all

/-- Modelled from the spec: the queue name constant `QUEUE_NAME` lives in
`robot_framework/config.py`, which is not part of the sources; `process.py`
reads the same queue as `"Databehandlingsaftale_Status_Queue"`. -/
def QUEUE_NAME : String := "Databehandlingsaftale_Status_Queue"

/-- Outcome of one `bulk_create_queue_elements` call: normal return, or one of
the two exception classes `upload_to_queue` catches. -/
inductive UploadOutcome
  | ok
  | valueError (m : String)
  | typeError (m : String)
deriving DecidableEq, Repr

/-- Observable effects of `upload_to_queue` (queue calls and `print` output). -/
inductive UpEffect
  | upload (queue : String) (references : List String) (payloads : List String)
  | print (m : String)
deriving DecidableEq, Repr

/-- The three guarded batches inside the single `try` block, run in order;
a raised `ValueError`/`TypeError` aborts the remaining batches and is logged. -/
def runBatches (outcome : String → List String → List String → UploadOutcome) :
    List (Bool × String × List String × List String) → List UpEffect
  | [] => []
  | (guard, name, refs, payloads) :: rest =>
    if guard then
      .print ("Uploading " ++ name ++ " data to queue...") ::
      .upload QUEUE_NAME refs payloads ::
      match outcome name refs payloads with
      | .ok => .print ("Successfully uploaded " ++ name ++ " data.") :: runBatches outcome rest
      | .valueError m => [.print ("A value error occurred: " ++ m)]
      | .typeError m => [.print ("A type error occurred: " ++ m)]
    else
      .print ("No data to upload for " ++ name ++ " data.") :: runBatches outcome rest

/-- The batch list of `upload_to_queue` (note the first guard tests the data
list while the other two test the reference lists, exactly as the code does). -/
def uploadBatches (md5hex : String → String)
    (approve_data delete_data wait_data : List ChangeRecord) :
    List (Bool × String × List String × List String) :=
  let all := finalReferences md5hex approve_data delete_data wait_data
  let approve_references := all.take approve_data.length
  let delete_references := (all.drop approve_data.length).take delete_data.length
  let wait_references := all.drop (approve_data.length + delete_data.length)
  [(!approve_data.isEmpty, "Godkend", approve_references, approve_data.map recordJson),
   (!delete_references.isEmpty, "Slet", delete_references, delete_data.map recordJson),
   (!wait_references.isEmpty, "Vent", wait_references, wait_data.map recordJson)]

/-- `upload_to_queue(approve_data, delete_data, wait_data, orchestrator_connection)`:
the sequence of observable effects, given the outcome of each queue call. -/
def upload_to_queue (outcome : String → List String → List String → UploadOutcome)
    (md5hex : String → String)
    (approve_data delete_data wait_data : List ChangeRecord) : List UpEffect :=
  runBatches outcome (uploadBatches md5hex approve_data delete_data wait_data)

/-- The `queue_upload` branch of `process()` in `process.py`: a `ValueError`
raised by `retrieve_changes` is caught at the top of `process` and only
logged, so no upload is attempted. -/
def process_queue_upload (outcome : String → List String → List String → UploadOutcome)
    (md5hex : String → String) (excel_files : List String) (df : List Row) :
    List UpEffect :=
  match retrieve_changes excel_files df with
  | .ok (approve_data, delete_data, wait_data) =>
      upload_to_queue outcome md5hex approve_data delete_data wait_data
  | .error e => [.print ("Value error: " ++ e)]

/-!
## Data model of `queue_handling.py`

The Selenium-driven remote portal is modelled by an `Env`: whether the
agreement table loads, the text contents (per row, the stripped-span texts)
of the remote agreement table, and whether the confirmation waits after a
mutation succeed.  A run of `perform_data_access` either returns a
`(success, message)` pair or raises one of the caught exception classes
(`TimeoutException`/`NoSuchElementException`); in both cases we record
whether a remote mutation (`change_status` or `delete_agreement`) was
invoked. -/

/-- `MAX_RETRIES` from `queue_handling.py`. -/
def MAX_RETRIES : Nat := 3

/-- Queue element lifecycle statuses (`OpenOrchestrator.database.queues.QueueStatus`). -/
inductive QueueStatus
  | NEW
  | IN_PROGRESS
  | DONE
  | FAILED
deriving DecidableEq, Repr

/-- The fields of a queue element's JSON payload used by `perform_data_access`. -/
structure ElementData where
  systemNavn : String
  serviceNavn : String
  status : String
deriving DecidableEq, Repr

/-- Remote-portal environment for one attempt of `perform_data_access`. -/
structure Env where
  /-- The initial checkbox clicks and the wait for `table.stil-tabel` succeed. -/
  tableOk : Bool
  /-- Row texts of the remote agreement table (the stripped `span` texts of
  each `td`-bearing row, in document order). -/
  rows : List (List String)
  /-- The wait for `table.stil-tabel` inside `check_status_change` succeeds
  (on timeout that helper returns `False`). -/
  checkTableOk : Bool
  /-- The confirmation text `Status for dataadgang er opdateret.` appears
  after `change_status` (otherwise the wait raises `TimeoutException`). -/
  confirmOk : Bool
  /-- `delete_agreement` reaches its `er slettet` confirmation (otherwise it
  catches the timeout itself and returns a failure pair). -/
  deleteOk : Bool
deriving Repr

/-- Result of `perform_data_access`: a returned `(success, message)` pair or a
propagated `TimeoutException`/`NoSuchElementException`; `mutated` records
whether `change_status`/`delete_agreement` was invoked. -/
inductive PdaResult
  | ret (success : Bool) (message : String) (mutated : Bool)
  | exn (mutated : Bool)
deriving DecidableEq, Repr

/-- `check_status_change`: the pure membership test on the stripped row texts
(`expected_status` is not stripped); a timeout while waiting for the table
makes it return `False`. -/
def check_status_change (env : Env) (system_name service_name expected_status : String)
    (column_texts : List String) : Bool :=
  if env.checkTableOk then
    (column_texts.map pyStrip).contains (pyStrip system_name)
      && (column_texts.map pyStrip).contains (pyStrip service_name)
      && (column_texts.map pyStrip).contains expected_status
  else
    false

/-- The row-matching test of `perform_data_access`: both names occur among the
stripped row texts. -/
def rowMatches (e : ElementData) (row_texts : List String) : Bool :=
  (row_texts.map pyStrip).contains (pyStrip e.systemNavn)
    && (row_texts.map pyStrip).contains (pyStrip e.serviceNavn)

/-- The row loop of `perform_data_access` (`agreement_found` accumulator). -/
def pdaLoop (env : Env) (e : ElementData) (ref : String) :
    List (List String) → Bool → PdaResult
  | [], found =>
    if !found then .ret false "Agreement not found" false
    else .ret false "Agreement not found or failed to update status" false
  | row_texts :: rest, found =>
    if rowMatches e row_texts then
      if pyStartsWith ref "Godkend" && e.status == "VENTER" then
        if check_status_change env e.systemNavn e.serviceNavn "GODKENDT" row_texts then
          .ret true "Agreement already approved" false
        else if env.confirmOk then
          .ret true "Agreement status changed to \x27GODKENDT\x27" true
        else
          .exn true
      else if pyStartsWith ref "Vent" && e.status == "GODKENDT" then
        if check_status_change env e.systemNavn e.serviceNavn "VENTER" row_texts then
          .ret true "Agreement already awaiting" false
        else if env.confirmOk then
          .ret true "Agreement status changed to \x27VENTER\x27" true
        else
          .exn true
      else if pyStartsWith ref "Slet" && e.status != "SLETTET" then
        if check_status_change env e.systemNavn e.serviceNavn "SLETTET" row_texts then
          .ret true "Agreement already deleted" false
        else if env.deleteOk then
          .ret true "Agreement deleted successfully" true
        else
          .ret false "Failed to delete agreement" true
      else
        pdaLoop env e ref rest true
    else
      pdaLoop env e ref rest found

/-- `perform_data_access(browser, element_data, ref, queue_element)`. -/
def perform_data_access (env : Env) (e : ElementData) (ref : String) : PdaResult :=
  if env.tableOk then pdaLoop env e ref env.rows false else .exn false

/-- The retry loop of `process_element`: each attempt first sets
`IN_PROGRESS`; a success sets `DONE` and stops; a business failure sets
`FAILED` and retries; a caught exception just retries; exhausting the loop
sets the final `FAILED`. Returns the sequence of status updates. -/
def processElementGo (envs : Nat → Env) (e : ElementData) (ref : String) :
    Nat → Nat → List (QueueStatus × Option String)
  | _, 0 => [(.FAILED, some "Maximum retries reached - Failed to process element")]
  | k, fuel + 1 =>
    (.IN_PROGRESS, none) ::
    match perform_data_access (envs k) e ref with
    | .ret true m _ => [(.DONE, some m)]
    | .ret false m _ => (.FAILED, some m) :: processElementGo envs e ref (k + 1) fuel
    | .exn _ => processElementGo envs e ref (k + 1) fuel

/-- `process_element(browser, queue_element, orchestrator_connection)`: the
sequence of `set_queue_element_status` updates it performs, with `envs k` the
remote state seen by attempt `k`. -/
def process_element (envs : Nat → Env) (e : ElementData) (ref : String) :
    List (QueueStatus × Option String) :=
  processElementGo envs e ref 0 MAX_RETRIES

/-- Result of `enter_organisation`: whether the navigation succeeded, and
whether a `TimeoutException`/`NoSuchElementException` escaped (the function
catches both inside its own retry loop, so `raised` is always `false`). -/
structure EnterResult where
  entered : Bool
  raised : Bool
deriving DecidableEq, Repr

/-- The retry loop of `enter_organisation`: `attempts k` tells whether attempt
`k` reaches `enter_dataadministration` successfully; failed attempts are
caught and retried; after `MAX_RETRIES` failures it just prints and returns. -/
def enterOrgGo (attempts : Nat → Bool) : Nat → Nat → EnterResult
  | _, 0 => ⟨false, false⟩
  | k, fuel + 1 =>
    if attempts k then ⟨true, false⟩ else enterOrgGo attempts (k + 1) fuel

/-- `enter_organisation(browser, org, instregnr)`. -/
def enter_organisation (attempts : Nat → Bool) : EnterResult :=
  enterOrgGo attempts 0 MAX_RETRIES

/-- A queue element as seen by `handle_elements_for_instregnr`. -/
structure QElem where
  id : Nat
  reference : String
  data : ElementData
deriving DecidableEq, Repr

/-- Observable effects of `handle_elements_for_instregnr`. -/
inductive IdEffect
  | setStatus (id : Nat) (st : QueueStatus) (msg : Option String)
  | logError (m : String)
deriving DecidableEq, Repr

/-- The outer retry loop of `handle_elements_for_instregnr`: it retries while
`enter_organisation` raises `TimeoutException`/`NoSuchElementException`, and
its `for ... else` branch marks every element `FAILED` only when all
`MAX_RETRIES` outer attempts raised. -/
def handleElementsGo (outerAttempts : Nat → Nat → Bool) (procEnv : Env)
    (elements : List QElem) : Nat → Nat → List IdEffect
  | _, 0 =>
    elements.map (fun el =>
      .setStatus el.id .FAILED (some "Failed entering Data Access Administration"))
    ++ [.logError ("Failed after " ++ natStr MAX_RETRIES
        ++ " retries: Error navigating to data access administration. All elements set to failed.")]
  | k, fuel + 1 =>
    if (enter_organisation (outerAttempts k)).raised then
      .logError "Error navigating to data access administration. Retrying..."
        :: handleElementsGo outerAttempts procEnv elements (k + 1) fuel
    else
      elements.flatMap (fun el =>
        (process_element (fun _ => procEnv) el.data el.reference).map
          (fun p => .setStatus el.id p.1 p.2))

/-- `handle_elements_for_instregnr(browser, instregnr, elements, orchestrator_connection)`:
`outerAttempts j k` is the success of inner attempt `k` of outer attempt `j`,
`procEnv` the remote state seen while processing the individual elements. -/
def handle_elements_for_instregnr (outerAttempts : Nat → Nat → Bool) (procEnv : Env)
    (elements : List QElem) : List IdEffect :=
  handleElementsGo outerAttempts procEnv elements 0 MAX_RETRIES

/-- A no-op row in the sense of the directive generator: empty/missing action
flag, or the observed status already equals the flag's target status. -/
def noopRow (r : Row) : Prop :=
  r.statusaendring = .nan ∨ r.statusaendring = .val "" ∨
    (r.statusaendring = .val "GODKEND" ∧ r.status = .val "GODKENDT") ∨
    (r.statusaendring = .val "SLET" ∧ r.status = .val "SLETTET") ∨
    (r.statusaendring = .val "VENT" ∧ r.status = .val "VENTER")

/-- Decidable equality for `Except`, needed to evaluate `retrieve_changes`
results in concrete witnesses. -/
instance {e a : Type} [DecidableEq e] [DecidableEq a] : DecidableEq (Except e a) := fun x y =>
  match x, y with
  | .error e1, .error e2 =>
    if h : e1 = e2 then .isTrue (by rw [h]) else .isFalse (by simp [h])
  | .error _, .ok _ => .isFalse (by simp)
  | .ok _, .error _ => .isFalse (by simp)
  | .ok a1, .ok a2 =>
    if h : a1 = a2 then .isTrue (by rw [h]) else .isFalse (by simp [h])

/-- The expected pre-state test of `perform_data_access`: the disjunction of
the three action-branch guards (`Godkend` requires recorded status `VENTER`,
`Vent` requires `GODKENDT`, `Slet` requires anything but `SLETTET`). -/
def expectedPre (ref status : String) : Bool :=
  (pyStartsWith ref "Godkend" && status == "VENTER")
    || (pyStartsWith ref "Vent" && status == "GODKENDT")
    || (pyStartsWith ref "Slet" && status != "SLETTET")

/-- Whether a `perform_data_access` run invoked a remote mutation. -/
def pdaMutated : PdaResult → Bool
  | .ret _ _ m => m
  | .exn m => m

/-- The target status corresponding to a reference's action prefix. -/
def targetOf (ref : String) : String :=
  if pyStartsWith ref "Godkend" then "GODKENDT"
  else if pyStartsWith ref "Vent" then "VENTER"
  else "SLETTET"

/-- The already-in-desired-state message for a reference's action prefix. -/
def alreadyMsg (ref : String) : String :=
  if pyStartsWith ref "Godkend" then "Agreement already approved"
  else if pyStartsWith ref "Vent" then "Agreement already awaiting"
  else "Agreement already deleted"

/-- The statuses of a status-update trace. -/
def statuses (tr : List (QueueStatus × Option String)) : List QueueStatus :=
  tr.map Prod.fst

/-- Whether position `i` of `l` has a later occurrence of the same value
(the positions the disambiguation loop rewrites). -/
def hasLater (l : List String) (i : Nat) : Bool :=
  (l.drop (i + 1)).contains (l.getD i "")

/-- Reference list after tagging the first `k` positions: every position
with a later equal occurrence carries the `_<index>` suffix. -/
def taggedUpTo (l : List String) (k : Nat) : List String :=
  (List.range k).map (fun i =>
    if hasLater l i then l.getD i "" ++ "_" ++ natStr i else l.getD i "")

/-- Specification of the disambiguation loop: position `i` gains the suffix
`_<i>` exactly when a later position holds the same reference. -/
def tagSpec (l : List String) : List String := taggedUpTo l l.length

/-- Whether an effect is one of the two error prints of `upload_to_queue`'s
`except` clauses. -/
def isErrPrint (e : UpEffect) : Bool :=
  match e with
  | .print s =>
    pyStartsWith s "A value error occurred: " || pyStartsWith s "A type error occurred: "
  | _ => false

/-- The error print produced by a raising `bulk_create_queue_elements` call. -/
def errEffect : UploadOutcome → Option UpEffect
  | .ok => none
  | .valueError m => some (.print ("A value error occurred: " ++ m))
  | .typeError m => some (.print ("A type error occurred: " ++ m))

/-! ## Theorems -/

theorem valRev_natDigitsRevAux : ∀ (fuel n : Nat), n < fuel →
    valRev (natDigitsRevAux fuel n) = n := by
  intro fuel
  induction fuel with
  | zero => intro n h; omega
  | succ g ih =>
    intro n h
    by_cases h10 : n < 10
    · have hc : (digChar n).toNat = 48 + n := by
        interval_cases n <;> decide
      simp [natDigitsRevAux, h10, valRev, hc]
    · have hrec : n / 10 < g := by
        have hlt : n / 10 < n := Nat.div_lt_self (by omega) (by omega)
        omega
      have hm : n % 10 < 10 := Nat.mod_lt _ (by omega)
      have hc : (digChar (n % 10)).toNat = 48 + n % 10 := by
        set m := n % 10 with hmdef
        interval_cases m <;> decide
      simp [natDigitsRevAux, h10, valRev, ih _ hrec, hc]
      omega

theorem natStr_injective : Function.Injective natStr := by
  intro a b h
  have hdat : (natDigitsRevAux (a + 1) a).reverse = (natDigitsRevAux (b + 1) b).reverse := by
    simpa [natStr] using congrArg String.data h
  have h2 : natDigitsRevAux (a + 1) a = natDigitsRevAux (b + 1) b :=
    List.reverse_injective hdat
  have ha := valRev_natDigitsRevAux (a + 1) a (Nat.lt_succ_self a)
  have hb := valRev_natDigitsRevAux (b + 1) b (Nat.lt_succ_self b)
  rw [h2, hb] at ha
  exact ha.symm

theorem underscore_not_mem_natDigitsRevAux : ∀ (fuel n : Nat),
    ('_' : Char) ∉ natDigitsRevAux fuel n := by
  intro fuel
  induction fuel with
  | zero => intro n; simp [natDigitsRevAux]
  | succ g ih =>
    intro n
    by_cases h10 : n < 10
    · have hne : digChar n ≠ '_' := by interval_cases n <;> decide
      simp [natDigitsRevAux, h10]
      exact fun h => hne h.symm
    · have hm : n % 10 < 10 := Nat.mod_lt _ (by omega)
      have hne : digChar (n % 10) ≠ '_' := by
        set m := n % 10 with hmdef
        interval_cases m <;> decide
      simp [natDigitsRevAux, h10, ih]
      exact fun h => hne h.symm

theorem underscore_not_mem_natStr (n : Nat) : ('_' : Char) ∉ (natStr n).data := by
  simp [natStr]
  exact underscore_not_mem_natDigitsRevAux _ _

/-- Splitting at the last underscore is unambiguous: if the parts after the
separators are underscore-free, equal concatenations have equal parts. -/
theorem append_underscore_cancel :
    ∀ (l1 l2 a b : List Char), ('_' : Char) ∉ a → ('_' : Char) ∉ b →
      l1 ++ '_' :: a = l2 ++ '_' :: b → l1 = l2 ∧ a = b := by
  intro l1
  induction l1 with
  | nil =>
    intro l2 a b ha hb h
    cases l2 with
    | nil => simpa using h
    | cons c l2t =>
      simp at h
      obtain ⟨hc, hrest⟩ := h
      exfalso
      apply ha
      rw [hrest]
      simp
  | cons c l1t ih =>
    intro l2 a b ha hb h
    cases l2 with
    | nil =>
      simp at h
      obtain ⟨hc, hrest⟩ := h
      exfalso
      apply hb
      rw [← hrest]
      simp
    | cons d l2t =>
      simp at h
      obtain ⟨hcd, hrest⟩ := h
      obtain ⟨h1, h2⟩ := ih l2t a b ha hb hrest
      exact ⟨by simp [hcd, h1], h2⟩

theorem data_tag (v : String) (i : Nat) :
    (v ++ "_" ++ natStr i).data = v.data ++ '_' :: (natStr i).data := by
  simp [String.data_append]

theorem tag_cancel {v w : String} {i j : Nat}
    (h : v ++ "_" ++ natStr i = w ++ "_" ++ natStr j) : v = w ∧ i = j := by
  have hd := congrArg String.data h
  rw [data_tag, data_tag] at hd
  obtain ⟨h1, h2⟩ := append_underscore_cancel _ _ _ _
    (underscore_not_mem_natStr i) (underscore_not_mem_natStr j) hd
  exact ⟨String.ext h1, natStr_injective (String.ext h2)⟩

theorem underscores_tag (v : String) (i : Nat) :
    underscores (v ++ "_" ++ natStr i) = underscores v + 1 := by
  have hz : ((natStr i).data.count '_') = 0 :=
    List.count_eq_zero.mpr (underscore_not_mem_natStr i)
  simp [underscores, data_tag, List.count_append, List.count_cons, hz]

/-!
## Theorems about `retrieve_changes` (claims C5, C8, C10)
-/

theorem selectData_middle_filtered (A B : List Row) (r : Row) (flag target : String)
    (h : rowFilter flag target r = false) :
    selectData (A ++ r :: B) flag target = selectData (A ++ B) flag target := by
  simp [selectData, List.filter_append, h]

theorem selectData_middle_none (A B : List Row) (r : Row) (flag target : String)
    (h : toRecord r = none) :
    selectData (A ++ r :: B) flag target = selectData (A ++ B) flag target := by
  by_cases hf : rowFilter flag target r <;>
    simp [selectData, List.filter_append, hf, List.filterMap_append, List.filterMap_cons, h]

/-- C5: a row with an empty action flag, or whose observed status already
equals its flag's target status (GODKEND/GODKENDT, SLET/SLETTET,
VENT/VENTER), contributes no directive to any of the three returned lists,
and `retrieve_changes` still succeeds: deleting such a row does not change
the result. -/
theorem retrieve_changes_noop_row (excel_files : List String) (pre post : List Row)
    (r : Row) (hfile : excel_files.length = 1) (hnoop : noopRow r) :
    retrieve_changes excel_files (pre ++ r :: post)
        = retrieve_changes excel_files (pre ++ post) ∧
      ∃ res, retrieve_changes excel_files (pre ++ r :: post) = .ok res := by
  have hfilters : rowFilter "GODKEND" "GODKENDT" (cleanRow r) = false
      ∧ rowFilter "SLET" "SLETTET" (cleanRow r) = false
      ∧ rowFilter "VENT" "VENTER" (cleanRow r) = false := by
    rcases hnoop with h | h | ⟨h1, h2⟩ | ⟨h1, h2⟩ | ⟨h1, h2⟩
    · simp [rowFilter, cleanRow, cellEq, cellNe, h]
    · simp [rowFilter, cleanRow, cellEq, cellNe, h]
    · simp [rowFilter, cleanRow, cellEq, cellNe, h1, h2]
    · simp [rowFilter, cleanRow, cellEq, cellNe, h1, h2]
    · simp [rowFilter, cleanRow, cellEq, cellNe, h1, h2]
  obtain ⟨hg, hs, hv⟩ := hfilters
  constructor
  · simp only [retrieve_changes, hfile]
    simp only [List.map_append, List.map_cons]
    rw [selectData_middle_filtered _ _ _ _ _ hg,
      selectData_middle_filtered _ _ _ _ _ hs,
      selectData_middle_filtered _ _ _ _ _ hv]
  · simp [retrieve_changes, hfile]

/-- Witness for `retrieve_changes_noop_row`. -/
theorem retrieve_changes_noop_row_witness :
    retrieve_changes ["Output/Oversigt.xlsx"]
        ([] ++ Row.mk (.val "1") (.val "S") (.val "V") (.val "GODKENDT") (.val "GODKEND") :: [])
      = retrieve_changes ["Output/Oversigt.xlsx"] ([] ++ []) ∧
    ∃ res, retrieve_changes ["Output/Oversigt.xlsx"]
        ([] ++ Row.mk (.val "1") (.val "S") (.val "V") (.val "GODKENDT") (.val "GODKEND") :: [])
      = .ok res :=
  retrieve_changes_noop_row ["Output/Oversigt.xlsx"] [] []
    (Row.mk (.val "1") (.val "S") (.val "V") (.val "GODKENDT") (.val "GODKEND"))
    (by decide) (Or.inr (Or.inr (Or.inl ⟨rfl, rfl⟩)))

/-- C10 counterexample: a row whose `Instregnr` cell is NaN but whose flag
requests GODKEND on a VENTER agreement is NOT excluded: `clean_instregnr`
stringifies the NaN to `"nan"` before `dropna()` runs, so the row survives
into the approve list (with institution id `"nan"`), contradicting the claim
that a NaN in any of the four selected columns silently excludes the row. -/
theorem retrieve_changes_nan_instregnr_kept :
    retrieve_changes ["Output/Oversigt.xlsx"]
        [Row.mk .nan (.val "S") (.val "V") (.val "VENTER") (.val "GODKEND")]
      = .ok ([ChangeRecord.mk "nan" "S" "V" "VENTER"], [], []) ∧
    retrieve_changes ["Output/Oversigt.xlsx"]
        [Row.mk .nan (.val "S") (.val "V") (.val "VENTER") (.val "GODKEND")]
      ≠ .ok ([], [], []) := by
  constructor <;> decide

/-- C10 as amended: only a NaN in the `systemNavn`, `serviceNavn` or `status`
column silently excludes the row from all three returned lists (a NaN
`Instregnr` is instead stringified to `"nan"` by the cleaning step and the
row is kept): deleting a row with a NaN in one of those three columns does
not change the result of `retrieve_changes`. -/
theorem retrieve_changes_nan_excluded (excel_files : List String)
    (pre post : List Row) (r : Row)
    (hnan : r.systemNavn = .nan ∨ r.serviceNavn = .nan ∨ r.status = .nan) :
    retrieve_changes excel_files (pre ++ r :: post)
      = retrieve_changes excel_files (pre ++ post) := by
  by_cases hfile : excel_files.length == 1
  · have hrec : toRecord (cleanRow r) = none := by
      rcases hnan with h | h | h <;> simp [toRecord, cleanRow, h]
    simp only [retrieve_changes, hfile]
    simp only [List.map_append, List.map_cons, if_true]
    rw [selectData_middle_none _ _ _ _ _ hrec,
      selectData_middle_none _ _ _ _ _ hrec,
      selectData_middle_none _ _ _ _ _ hrec]
  · simp [retrieve_changes, hfile]

/-- Witness for `retrieve_changes_nan_excluded`. -/
theorem retrieve_changes_nan_excluded_witness :
    retrieve_changes ["Output/Oversigt.xlsx"]
        ([] ++ Row.mk (.val "1") .nan (.val "V") (.val "VENTER") (.val "GODKEND") :: [])
      = retrieve_changes ["Output/Oversigt.xlsx"] ([] ++ []) :=
  retrieve_changes_nan_excluded ["Output/Oversigt.xlsx"] [] []
    (Row.mk (.val "1") .nan (.val "V") (.val "VENTER") (.val "GODKEND"))
    (Or.inl rfl)

/-- C8: `retrieve_changes` raises (returns an error) exactly when the number
of Oversigt files in the Output directory differs from one, and in that case
the `queue_upload` branch of `process` performs no queue upload at all (the
`ValueError` aborts the branch and is only logged at the top of `process`),
so the error is fatal to the run rather than a per-item failure. -/
theorem retrieve_changes_error_iff (excel_files : List String) (df : List Row)
    (outcome : String → List String → List String → UploadOutcome)
    (md5hex : String → String) :
    ((∃ msg, retrieve_changes excel_files df = .error msg) ↔ excel_files.length ≠ 1) ∧
    (excel_files.length ≠ 1 →
      ∀ e ∈ process_queue_upload outcome md5hex excel_files df,
        ∀ q refs payloads, e ≠ .upload q refs payloads) := by
  constructor
  · by_cases hfile : excel_files.length = 1
    · have hb : (excel_files.length == 1) = true := by simpa using hfile
      simp [retrieve_changes, hb, hfile]
    · have hb : (excel_files.length == 1) = false := by simpa using hfile
      simp [retrieve_changes, hb, hfile]
  · intro hne e he q refs payloads
    have hfile : (excel_files.length == 1) = false := by
      simp [hne]
    simp [process_queue_upload, retrieve_changes, hfile] at he
    simp [he]

/-- Witness for `retrieve_changes_error_iff`. -/
theorem retrieve_changes_error_iff_witness :
    (∃ msg, retrieve_changes ([] : List String) [] = .error msg) ∧
    ∀ e ∈ process_queue_upload (fun _ _ _ => .ok) (fun _ => "") ([] : List String) [],
      ∀ q refs payloads, e ≠ .upload q refs payloads :=
  ⟨(retrieve_changes_error_iff [] [] (fun _ _ _ => .ok) (fun _ => "")).1.mpr (by decide),
   (retrieve_changes_error_iff [] [] (fun _ _ _ => .ok) (fun _ => "")).2 (by decide)⟩


/-!
## Theorems about `generate_short_hash` (claim C6)
-/

theorem keyLe_iff (a b : String × String) : keyLe a b = true ↔ a.1 ≤ b.1 := by
  unfold keyLe
  exact ⟨of_decide_eq_true, decide_eq_true⟩

theorem keyLe_trans : ∀ (a b c : String × String),
    keyLe a b = true → keyLe b c = true → keyLe a c = true := by
  intro a b c hab hbc
  exact (keyLe_iff a c).mpr (le_trans ((keyLe_iff a b).mp hab) ((keyLe_iff b c).mp hbc))

theorem keyLe_total : ∀ (a b : String × String), (keyLe a b || keyLe b a) = true := by
  intro a b
  rcases le_total a.1 b.1 with h | h
  · exact Bool.or_eq_true_iff.mpr (Or.inl ((keyLe_iff a b).mpr h))
  · exact Bool.or_eq_true_iff.mpr (Or.inr ((keyLe_iff b a).mpr h))

theorem mergeSort_keyLe_eq_of_perm (d1 d2 : List (String × String))
    (hperm : d1.Perm d2) (hkeys : (d1.map Prod.fst).Nodup) :
    d1.mergeSort keyLe = d2.mergeSort keyLe := by
  have hperm2 : (d1.mergeSort keyLe).Perm (d2.mergeSort keyLe) :=
    ((List.mergeSort_perm d1 keyLe).trans hperm).trans (List.mergeSort_perm d2 keyLe).symm
  have hk1 : ((d1.mergeSort keyLe).map Prod.fst).Nodup :=
    (((List.mergeSort_perm d1 keyLe).map Prod.fst).nodup_iff).mpr hkeys
  have hk2 : ((d2.mergeSort keyLe).map Prod.fst).Nodup := by
    have h := (((List.mergeSort_perm d2 keyLe).trans hperm.symm).map Prod.fst).nodup_iff
    exact h.mpr hkeys
  have hs1 : List.Pairwise (fun a b : String × String => a.1 < b.1) (d1.mergeSort keyLe) := by
    have hle := List.sorted_mergeSort keyLe_trans keyLe_total d1
    have hne : List.Pairwise (fun a b : String × String => a.1 ≠ b.1) (d1.mergeSort keyLe) :=
      List.pairwise_map.mp hk1
    exact (hle.and hne).imp (fun h => lt_of_le_of_ne ((keyLe_iff _ _).mp h.1) h.2)
  have hs2 : List.Pairwise (fun a b : String × String => a.1 < b.1) (d2.mergeSort keyLe) := by
    have hle := List.sorted_mergeSort keyLe_trans keyLe_total d2
    have hne : List.Pairwise (fun a b : String × String => a.1 ≠ b.1) (d2.mergeSort keyLe) :=
      List.pairwise_map.mp hk2
    exact (hle.and hne).imp (fun h => lt_of_le_of_ne ((keyLe_iff _ _).mp h.1) h.2)
  haveI : IsAntisymm (String × String) (fun a b : String × String => a.1 < b.1) :=
    ⟨fun a b h1 h2 => absurd h2 (not_lt.mpr (le_of_lt h1))⟩
  exact List.eq_of_perm_of_sorted hperm2 hs1 hs2

/-- C6: for any digest function, two directive dicts that are equal as field
mappings (same key-value pairs in any order, with no repeated key) produce
the same `generate_short_hash` digest and hence the same
`f"{action}_{hash}"` reference: the reference is a function of the canonical
sorted-key serialization only. -/
theorem generate_short_hash_deterministic (md5hex : String → String)
    (d1 d2 : List (String × String)) (action : String)
    (hperm : d1.Perm d2) (hkeys : (d1.map Prod.fst).Nodup) :
    generate_short_hash md5hex d1 = generate_short_hash md5hex d2 ∧
    action ++ "_" ++ generate_short_hash md5hex d1
      = action ++ "_" ++ generate_short_hash md5hex d2 := by
  have h : generate_short_hash md5hex d1 = generate_short_hash md5hex d2 := by
    simp [generate_short_hash, jsonDumpsSorted,
      mergeSort_keyLe_eq_of_perm d1 d2 hperm hkeys]
  exact ⟨h, by rw [h]⟩

/-- Witness for `generate_short_hash_deterministic`. -/
theorem generate_short_hash_deterministic_witness :
    generate_short_hash (fun s => s) [("b", "2"), ("a", "1")]
        = generate_short_hash (fun s => s) [("a", "1"), ("b", "2")] ∧
    "Godkend" ++ "_" ++ generate_short_hash (fun s => s) [("b", "2"), ("a", "1")]
      = "Godkend" ++ "_" ++ generate_short_hash (fun s => s) [("a", "1"), ("b", "2")] :=
  generate_short_hash_deterministic (fun s => s) [("b", "2"), ("a", "1")]
    [("a", "1"), ("b", "2")] "Godkend" (by decide) (by decide)

/-!
## Theorems about `perform_data_access` (claims C9, C7)
-/

theorem pdaLoop_no_pre (env : Env) (e : ElementData) (ref : String)
    (h : expectedPre ref e.status = false) :
    ∀ (rows : List (List String)) (found : Bool),
      ∃ m, pdaLoop env e ref rows found = .ret false m false := by
  have hg : (pyStartsWith ref "Godkend" && e.status == "VENTER") = false := by
    simp [expectedPre] at h
    obtain ⟨⟨hG, hV⟩, hS⟩ := h
    by_cases h1 : pyStartsWith ref "Godkend" <;> simp [h1]
    exact hG h1
  have hv : (pyStartsWith ref "Vent" && e.status == "GODKENDT") = false := by
    simp [expectedPre] at h
    obtain ⟨⟨hG, hV⟩, hS⟩ := h
    by_cases h1 : pyStartsWith ref "Vent" <;> simp [h1]
    exact hV h1
  have hs : (pyStartsWith ref "Slet" && e.status != "SLETTET") = false := by
    simp [expectedPre] at h
    obtain ⟨⟨hG, hV⟩, hS⟩ := h
    by_cases h1 : pyStartsWith ref "Slet" <;> simp [h1]
    exact hS h1
  intro rows
  induction rows with
  | nil =>
    intro found
    cases found <;> simp [pdaLoop]
  | cons row rest ih =>
    intro found
    by_cases hm : rowMatches e row
    · simpa [pdaLoop, hm, hg, hv, hs] using ih true
    · simpa [pdaLoop, hm] using ih found

/-- C9: `perform_data_access` invokes a remote mutation only when the
element's recorded status equals the expected pre-state for its action
prefix (`VENTER` for `Godkend`, `GODKENDT` for `Vent`, anything other than
`SLETTET` for `Slet`); when the recorded status does not match and the
agreement table loads, it returns a failure pair without performing any
mutation. -/
theorem perform_data_access_pre_state (env : Env) (e : ElementData) (ref : String) :
    (env.tableOk = true → expectedPre ref e.status = false →
      ∃ m, perform_data_access env e ref = .ret false m false) ∧
    (pdaMutated (perform_data_access env e ref) = true →
      expectedPre ref e.status = true) := by
  constructor
  · intro htable hpre
    simp [perform_data_access, htable]
    exact pdaLoop_no_pre env e ref hpre env.rows false
  · intro hmut
    by_cases hpre : expectedPre ref e.status
    · exact hpre
    · exfalso
      by_cases htable : env.tableOk
      · obtain ⟨m, hm⟩ := (by
          simp [perform_data_access, htable]
          exact pdaLoop_no_pre env e ref (by simpa using hpre) env.rows false :
            ∃ m, perform_data_access env e ref = .ret false m false)
        rw [hm] at hmut
        simp [pdaMutated] at hmut
      · simp [perform_data_access, htable, pdaMutated] at hmut

/-- Witness for `perform_data_access_pre_state`. -/
theorem perform_data_access_pre_state_witness :
    ∃ m, perform_data_access (Env.mk true [["S", "V", "GODKENDT"]] true true true)
        (ElementData.mk "S" "V" "AFVIST") "Godkend_abcd1234" = .ret false m false :=
  (perform_data_access_pre_state (Env.mk true [["S", "V", "GODKENDT"]] true true true)
    (ElementData.mk "S" "V" "AFVIST") "Godkend_abcd1234").1 rfl (by decide)

/-!
## Theorems about `process_element` (claims C3, C7)
-/

theorem processElementGo_ne_nil (envs : Nat → Env) (e : ElementData) (ref : String) :
    ∀ (fuel k : Nat), processElementGo envs e ref k fuel ≠ [] := by
  intro fuel
  induction fuel with
  | zero => intro k; simp [processElementGo]
  | succ g ih =>
    intro k
    cases hr : perform_data_access (envs k) e ref with
    | ret s m mu => cases s <;> simp [processElementGo, hr]
    | exn mu => simp [processElementGo, hr]

theorem processElementGo_head (envs : Nat → Env) (e : ElementData) (ref : String)
    (k fuel : Nat) :
    (processElementGo envs e ref k (fuel + 1)).head? = some (.IN_PROGRESS, none) := by
  cases hr : perform_data_access (envs k) e ref with
  | ret s m mu => cases s <;> simp [processElementGo, hr]
  | exn mu => simp [processElementGo, hr]

theorem processElementGo_terminal (envs : Nat → Env) (e : ElementData) (ref : String) :
    ∀ (fuel k : Nat), ∃ p, (processElementGo envs e ref k fuel).getLast? = some p
      ∧ (p.1 = QueueStatus.DONE ∨ p.1 = QueueStatus.FAILED) := by
  intro fuel
  induction fuel with
  | zero =>
    intro k
    exact ⟨(.FAILED, some "Maximum retries reached - Failed to process element"),
      by simp [processElementGo], Or.inr rfl⟩
  | succ g ih =>
    intro k
    cases hr : perform_data_access (envs k) e ref with
    | ret s m mu =>
      cases s with
      | true => exact ⟨(.DONE, some m), by simp [processElementGo, hr], Or.inl rfl⟩
      | false =>
        obtain ⟨p, hp, hterm⟩ := ih (k + 1)
        obtain ⟨b, L, hbl⟩ := List.exists_cons_of_ne_nil (processElementGo_ne_nil envs e ref g (k + 1))
        refine ⟨p, ?_, hterm⟩
        rw [show processElementGo envs e ref k (g + 1)
            = (.IN_PROGRESS, none) :: (.FAILED, some m) :: processElementGo envs e ref (k + 1) g
          from by simp [processElementGo, hr]]
        rw [List.getLast?_cons_cons, hbl, List.getLast?_cons_cons, ← hbl]
        exact hp
    | exn mu =>
      obtain ⟨p, hp, hterm⟩ := ih (k + 1)
      obtain ⟨b, L, hbl⟩ := List.exists_cons_of_ne_nil (processElementGo_ne_nil envs e ref g (k + 1))
      refine ⟨p, ?_, hterm⟩
      rw [show processElementGo envs e ref k (g + 1)
          = (.IN_PROGRESS, none) :: processElementGo envs e ref (k + 1) g
        from by simp [processElementGo, hr]]
      rw [hbl, List.getLast?_cons_cons, ← hbl]
      exact hp

theorem processElementGo_done_last (envs : Nat → Env) (e : ElementData) (ref : String) :
    ∀ (fuel k : Nat),
      QueueStatus.DONE ∉ statuses (processElementGo envs e ref k fuel).dropLast := by
  intro fuel
  induction fuel with
  | zero => intro k; simp [processElementGo, statuses]
  | succ g ih =>
    intro k
    cases hr : perform_data_access (envs k) e ref with
    | ret s m mu =>
      cases s with
      | true => simp [processElementGo, hr, statuses]
      | false =>
        obtain ⟨b, L, hbl⟩ := List.exists_cons_of_ne_nil (processElementGo_ne_nil envs e ref g (k + 1))
        rw [show processElementGo envs e ref k (g + 1)
            = (.IN_PROGRESS, none) :: (.FAILED, some m) :: processElementGo envs e ref (k + 1) g
          from by simp [processElementGo, hr]]
        rw [hbl, List.dropLast_cons₂, List.dropLast_cons₂]
        have := ih (k + 1)
        rw [hbl] at this
        simp only [statuses, List.map_cons, List.mem_cons] at this ⊢
        rintro (h | h | h)
        · exact absurd h.symm (by simp)
        · exact absurd h.symm (by simp)
        · exact this h
    | exn mu =>
      obtain ⟨b, L, hbl⟩ := List.exists_cons_of_ne_nil (processElementGo_ne_nil envs e ref g (k + 1))
      rw [show processElementGo envs e ref k (g + 1)
          = (.IN_PROGRESS, none) :: processElementGo envs e ref (k + 1) g
        from by simp [processElementGo, hr]]
      rw [hbl, List.dropLast_cons₂]
      have := ih (k + 1)
      rw [hbl] at this
      simp only [statuses, List.map_cons, List.mem_cons] at this ⊢
      rintro (h | h)
      · exact absurd h.symm (by simp)
      · exact this h

/-- C3 as amended: every status trace of `process_element` starts with
IN_PROGRESS, ends with DONE or FAILED, and DONE is only ever the final
status update (after DONE nothing further is set); FAILED, however, is not
terminal within a run — the retry loop may set FAILED and then IN_PROGRESS
again (see the counterexample theorem). -/
theorem process_element_status_discipline (envs : Nat → Env) (e : ElementData)
    (ref : String) :
    (process_element envs e ref).head? = some (.IN_PROGRESS, none) ∧
    (∃ p, (process_element envs e ref).getLast? = some p
      ∧ (p.1 = QueueStatus.DONE ∨ p.1 = QueueStatus.FAILED)) ∧
    QueueStatus.DONE ∉ statuses (process_element envs e ref).dropLast := by
  refine ⟨?_, processElementGo_terminal envs e ref MAX_RETRIES 0,
    processElementGo_done_last envs e ref MAX_RETRIES 0⟩
  exact processElementGo_head envs e ref 0 2

/-- C3 counterexample: on an element whose agreement is not found, the code
sets FAILED and then retries, setting IN_PROGRESS again — the terminal
status FAILED is re-entered and left, contradicting the claim that once a
terminal status is set no further status is set. -/
theorem process_element_reenters_failed :
    statuses (process_element (fun _ => Env.mk true [] true true true)
        (ElementData.mk "S" "V" "VENTER") "Godkend_abcd1234")
      = [.IN_PROGRESS, .FAILED, .IN_PROGRESS, .FAILED, .IN_PROGRESS, .FAILED, .FAILED] ∧
    (statuses (process_element (fun _ => Env.mk true [] true true true)
        (ElementData.mk "S" "V" "VENTER") "Godkend_abcd1234")).getD 1 .NEW
      = QueueStatus.FAILED ∧
    (statuses (process_element (fun _ => Env.mk true [] true true true)
        (ElementData.mk "S" "V" "VENTER") "Godkend_abcd1234")).getD 2 .NEW
      = QueueStatus.IN_PROGRESS := by
  refine ⟨?_, ?_, ?_⟩ <;> decide

theorem pyStartsWith_take (s p : String) (h : pyStartsWith s p = true)
    (k : Nat) (hk : k ≤ p.data.length) : s.data.take k = p.data.take k := by
  unfold pyStartsWith at h
  have h2 : s.data.take p.data.length = p.data := by simpa using h
  calc s.data.take k = (s.data.take p.data.length).take k := by
        rw [List.take_take, min_eq_left hk]
    _ = p.data.take k := by rw [h2]

theorem vent_not_godkend (s : String) (h : pyStartsWith s "Vent" = true) :
    pyStartsWith s "Godkend" = false := by
  cases hb : pyStartsWith s "Godkend" with
  | false => rfl
  | true =>
    exfalso
    have h1 := pyStartsWith_take s "Vent" h 4 (by decide)
    have h2 := pyStartsWith_take s "Godkend" hb 4 (by decide)
    rw [h1] at h2
    exact absurd h2 (by decide)

theorem slet_not_godkend (s : String) (h : pyStartsWith s "Slet" = true) :
    pyStartsWith s "Godkend" = false := by
  cases hb : pyStartsWith s "Godkend" with
  | false => rfl
  | true =>
    exfalso
    have h1 := pyStartsWith_take s "Slet" h 4 (by decide)
    have h2 := pyStartsWith_take s "Godkend" hb 4 (by decide)
    rw [h1] at h2
    exact absurd h2 (by decide)

theorem slet_not_vent (s : String) (h : pyStartsWith s "Slet" = true) :
    pyStartsWith s "Vent" = false := by
  cases hb : pyStartsWith s "Vent" with
  | false => rfl
  | true =>
    exfalso
    have h1 := pyStartsWith_take s "Slet" h 4 (by decide)
    have h2 := pyStartsWith_take s "Vent" hb 4 (by decide)
    rw [h1] at h2
    exact absurd h2 (by decide)

theorem pdaLoop_skip (env : Env) (e : ElementData) (ref : String)
    (pre rest : List (List String)) (found : Bool)
    (h : ∀ t ∈ pre, rowMatches e t = false) :
    pdaLoop env e ref (pre ++ rest) found = pdaLoop env e ref rest found := by
  induction pre with
  | nil => rfl
  | cons t ts ih =>
    have ht : rowMatches e t = false := h t (by simp)
    simp only [List.cons_append, pdaLoop, ht, Bool.false_eq_true, if_false]
    exact ih (fun u hu => h u (by simp [hu]))

/-- C7 as amended: for a queue element whose recorded status equals the
expected pre-state of its action prefix, if the first remote row matching
(system, service) already shows the target status, `perform_data_access`
returns success with the "already …" message and `process_element` marks the
item DONE at once; and a directive whose (system, service) pair is entirely
absent from the remote view yields the "Agreement not found" failure and the
item ends FAILED.  (Without the pre-state condition the first part is false:
see the counterexample theorem.) -/
theorem perform_data_access_idempotent_and_notfound (env : Env) (e : ElementData)
    (ref : String) (pre post : List (List String)) (row : List String)
    (htable : env.tableOk = true) (hcheck : env.checkTableOk = true) :
    (env.rows = pre ++ row :: post →
      (∀ t ∈ pre, rowMatches e t = false) →
      rowMatches e row = true →
      expectedPre ref e.status = true →
      (row.map pyStrip).contains (targetOf ref) = true →
      perform_data_access env e ref = .ret true (alreadyMsg ref) false ∧
      process_element (fun _ => env) e ref
        = [(.IN_PROGRESS, none), (.DONE, some (alreadyMsg ref))]) ∧
    ((∀ t ∈ env.rows, rowMatches e t = false) →
      perform_data_access env e ref = .ret false "Agreement not found" false ∧
      (process_element (fun _ => env) e ref).getLast?
        = some (.FAILED, some "Maximum retries reached - Failed to process element")) := by
  constructor
  · intro hrows hpre hmatch hexp htarget
    obtain ⟨hsys, hsvc⟩ : (row.map pyStrip).contains (pyStrip e.systemNavn) = true
        ∧ (row.map pyStrip).contains (pyStrip e.serviceNavn) = true := by
      simpa [rowMatches] using hmatch
    have hperf : perform_data_access env e ref = .ret true (alreadyMsg ref) false := by
      simp only [perform_data_access, htable, if_true, hrows]
      rw [pdaLoop_skip env e ref pre (row :: post) false hpre]
      simp only [expectedPre, Bool.or_eq_true, Bool.and_eq_true] at hexp
      rcases hexp with (⟨hG, hst⟩ | ⟨hV, hst⟩) | ⟨hS, hst⟩
      · have hst2 : e.status = "VENTER" := by simpa using hst
        have htgt : targetOf ref = "GODKENDT" := by simp [targetOf, hG]
        have hmsg : alreadyMsg ref = "Agreement already approved" := by simp [alreadyMsg, hG]
        rw [htgt] at htarget
        have hchk : check_status_change env e.systemNavn e.serviceNavn "GODKENDT" row = true := by
          unfold check_status_change
          rw [hcheck]
          simp only [if_true]
          rw [hsys, hsvc, htarget]
          rfl
        simp [pdaLoop, hmatch, hG, hst2, hchk, hmsg]
      · have hst2 : e.status = "GODKENDT" := by simpa using hst
        have hnG : pyStartsWith ref "Godkend" = false := vent_not_godkend ref hV
        have htgt : targetOf ref = "VENTER" := by simp [targetOf, hV, hnG]
        have hmsg : alreadyMsg ref = "Agreement already awaiting" := by
          simp [alreadyMsg, hV, hnG]
        rw [htgt] at htarget
        have hchk : check_status_change env e.systemNavn e.serviceNavn "VENTER" row = true := by
          unfold check_status_change
          rw [hcheck]
          simp only [if_true]
          rw [hsys, hsvc, htarget]
          rfl
        simp [pdaLoop, hmatch, hnG, hV, hst2, hchk, hmsg]
      · have hnG : pyStartsWith ref "Godkend" = false := slet_not_godkend ref hS
        have hnV : pyStartsWith ref "Vent" = false := slet_not_vent ref hS
        have htgt : targetOf ref = "SLETTET" := by simp [targetOf, hnG, hnV]
        have hmsg : alreadyMsg ref = "Agreement already deleted" := by
          simp [alreadyMsg, hnG, hnV]
        rw [htgt] at htarget
        have hchk : check_status_change env e.systemNavn e.serviceNavn "SLETTET" row = true := by
          unfold check_status_change
          rw [hcheck]
          simp only [if_true]
          rw [hsys, hsvc, htarget]
          rfl
        simp [pdaLoop, hmatch, hnG, hnV, hS, hst, hchk, hmsg]
    refine ⟨hperf, ?_⟩
    simp [process_element, MAX_RETRIES, processElementGo, hperf]
  · intro hnone
    have hperf : perform_data_access env e ref = .ret false "Agreement not found" false := by
      simp only [perform_data_access, htable, if_true]
      have h := pdaLoop_skip env e ref env.rows [] false hnone
      rw [List.append_nil] at h
      rw [h]
      rfl
    refine ⟨hperf, ?_⟩
    simp [process_element, MAX_RETRIES, processElementGo, hperf]

/-- Witness for `perform_data_access_idempotent_and_notfound`. -/
theorem perform_data_access_idempotent_and_notfound_witness :
    (perform_data_access (Env.mk true [["S", "V", "GODKENDT"]] true true true)
        (ElementData.mk "S" "V" "VENTER") "Godkend_abcd1234"
        = .ret true (alreadyMsg "Godkend_abcd1234") false ∧
      process_element (fun _ => Env.mk true [["S", "V", "GODKENDT"]] true true true)
        (ElementData.mk "S" "V" "VENTER") "Godkend_abcd1234"
        = [(.IN_PROGRESS, none), (.DONE, some (alreadyMsg "Godkend_abcd1234"))]) ∧
    (perform_data_access (Env.mk true [] true true true)
        (ElementData.mk "S" "V" "VENTER") "Godkend_abcd1234"
        = .ret false "Agreement not found" false ∧
      (process_element (fun _ => Env.mk true [] true true true)
        (ElementData.mk "S" "V" "VENTER") "Godkend_abcd1234").getLast?
        = some (.FAILED, some "Maximum retries reached - Failed to process element")) :=
  ⟨(perform_data_access_idempotent_and_notfound
      (Env.mk true [["S", "V", "GODKENDT"]] true true true)
      (ElementData.mk "S" "V" "VENTER") "Godkend_abcd1234"
      [] [] ["S", "V", "GODKENDT"] rfl rfl).1
      rfl (by simp) (by decide) (by decide) (by decide),
   (perform_data_access_idempotent_and_notfound
      (Env.mk true [] true true true)
      (ElementData.mk "S" "V" "VENTER") "Godkend_abcd1234"
      [] [] [] rfl rfl).2 (by simp)⟩

/-- C7 counterexample: a Godkend queue element whose agreement row already
shows the target status GODKENDT in the remote view is nevertheless NOT
marked DONE when its recorded status (here `AFVIST`) differs from the
expected pre-state `VENTER`: none of the action branches fires, the call
returns a failure, and the item ends FAILED — contradicting the claim for
every element whose agreement already shows the target status. -/
theorem perform_data_access_target_status_not_done :
    perform_data_access (Env.mk true [["S", "V", "GODKENDT"]] true true true)
        (ElementData.mk "S" "V" "AFVIST") "Godkend_abcd1234"
      = .ret false "Agreement not found or failed to update status" false ∧
    (process_element (fun _ => Env.mk true [["S", "V", "GODKENDT"]] true true true)
        (ElementData.mk "S" "V" "AFVIST") "Godkend_abcd1234").getLast?
      = some (.FAILED, some "Maximum retries reached - Failed to process element") := by
  constructor <;> decide

/-!
## Theorems about `handle_elements_for_instregnr` (claim C2)
-/

theorem enterOrgGo_raised (attempts : Nat → Bool) :
    ∀ (fuel k : Nat), (enterOrgGo attempts k fuel).raised = false := by
  intro fuel
  induction fuel with
  | zero => intro k; rfl
  | succ g ih =>
    intro k
    by_cases h : attempts k <;> simp [enterOrgGo, h, ih]

/-- C2: `enter_organisation` catches the `TimeoutException`/
`NoSuchElementException` of every failed attempt inside its own retry loop
and returns normally, so the caller's `for … else` branch that would mark
every QueueItem of the institution FAILED with "Failed entering Data Access
Administration" can never run: with every navigation attempt failing, the
elements are not marked FAILED for the context failure — instead each one is
individually processed against the never-established context, going through
the per-item retry loop to a "Maximum retries reached" failure. -/
theorem handle_elements_context_failure_unreachable :
    (∀ (attempts : Nat → Bool), (enter_organisation attempts).raised = false) ∧
    handle_elements_for_instregnr (fun _ _ => false) (Env.mk false [] false false false)
        [QElem.mk 7 "Godkend_abcd1234" (ElementData.mk "S" "V" "VENTER")]
      = [.setStatus 7 .IN_PROGRESS none, .setStatus 7 .IN_PROGRESS none,
         .setStatus 7 .IN_PROGRESS none,
         .setStatus 7 .FAILED (some "Maximum retries reached - Failed to process element")] ∧
    IdEffect.setStatus 7 .FAILED (some "Failed entering Data Access Administration")
      ∉ handle_elements_for_instregnr (fun _ _ => false) (Env.mk false [] false false false)
        [QElem.mk 7 "Godkend_abcd1234" (ElementData.mk "S" "V" "VENTER")] := by
  refine ⟨fun attempts => enterOrgGo_raised attempts MAX_RETRIES 0, ?_, ?_⟩ <;> decide

/-!
## Theorems about `upload_to_queue` (claims C1, C4)
-/

theorem take2_append (A B : List Char) (h : 2 ≤ A.length) : (A ++ B).take 2 = A.take 2 := by
  rw [List.take_append_eq_append_take, Nat.sub_eq_zero_of_le h]
  simp

theorem two_le_append_left (A B : List Char) (h : 2 ≤ A.length) : 2 ≤ (A ++ B).length := by
  rw [List.length_append]
  omega

theorem pyStartsWith_false_of_take2 (s p : String) (h2 : 2 ≤ p.data.length)
    (hne : s.data.take 2 ≠ p.data.take 2) : pyStartsWith s p = false := by
  cases hb : pyStartsWith s p with
  | false => rfl
  | true => exact absurd (pyStartsWith_take s p hb 2 h2) hne

theorem isErrPrint_uploading (name : String) :
    isErrPrint (.print ("Uploading " ++ name ++ " data to queue...")) = false := by
  have ht : ("Uploading " ++ name ++ " data to queue...").data.take 2
      = "Uploading ".data.take 2 := by
    rw [show ("Uploading " ++ name ++ " data to queue...")
        = ("Uploading " ++ name) ++ " data to queue..." from rfl]
    rw [String.data_append, String.data_append]
    rw [take2_append _ _ (two_le_append_left _ _ (by decide))]
    exact take2_append _ _ (by decide)
  have h1 : pyStartsWith ("Uploading " ++ name ++ " data to queue...")
      "A value error occurred: " = false :=
    pyStartsWith_false_of_take2 _ _ (by decide) (by rw [ht]; decide)
  have h2 : pyStartsWith ("Uploading " ++ name ++ " data to queue...")
      "A type error occurred: " = false :=
    pyStartsWith_false_of_take2 _ _ (by decide) (by rw [ht]; decide)
  simp [isErrPrint, h1, h2]

theorem isErrPrint_success (name : String) :
    isErrPrint (.print ("Successfully uploaded " ++ name ++ " data.")) = false := by
  have ht : ("Successfully uploaded " ++ name ++ " data.").data.take 2
      = "Successfully uploaded ".data.take 2 := by
    rw [show ("Successfully uploaded " ++ name ++ " data.")
        = ("Successfully uploaded " ++ name) ++ " data." from rfl]
    rw [String.data_append, String.data_append]
    rw [take2_append _ _ (two_le_append_left _ _ (by decide))]
    exact take2_append _ _ (by decide)
  have h1 : pyStartsWith ("Successfully uploaded " ++ name ++ " data.")
      "A value error occurred: " = false :=
    pyStartsWith_false_of_take2 _ _ (by decide) (by rw [ht]; decide)
  have h2 : pyStartsWith ("Successfully uploaded " ++ name ++ " data.")
      "A type error occurred: " = false :=
    pyStartsWith_false_of_take2 _ _ (by decide) (by rw [ht]; decide)
  simp [isErrPrint, h1, h2]

theorem isErrPrint_nodata (name : String) :
    isErrPrint (.print ("No data to upload for " ++ name ++ " data.")) = false := by
  have ht : ("No data to upload for " ++ name ++ " data.").data.take 2
      = "No data to upload for ".data.take 2 := by
    rw [show ("No data to upload for " ++ name ++ " data.")
        = ("No data to upload for " ++ name) ++ " data." from rfl]
    rw [String.data_append, String.data_append]
    rw [take2_append _ _ (two_le_append_left _ _ (by decide))]
    exact take2_append _ _ (by decide)
  have h1 : pyStartsWith ("No data to upload for " ++ name ++ " data.")
      "A value error occurred: " = false :=
    pyStartsWith_false_of_take2 _ _ (by decide) (by rw [ht]; decide)
  have h2 : pyStartsWith ("No data to upload for " ++ name ++ " data.")
      "A type error occurred: " = false :=
    pyStartsWith_false_of_take2 _ _ (by decide) (by rw [ht]; decide)
  simp [isErrPrint, h1, h2]

theorem runBatches_err_last (oc : String → List String → List String → UploadOutcome) :
    ∀ (bs : List (Bool × String × List String × List String)),
      ∀ e ∈ (runBatches oc bs).dropLast, isErrPrint e = false := by
  intro bs
  induction bs with
  | nil => simp [runBatches]
  | cons b rest ih =>
    obtain ⟨g, name, refs, pls⟩ := b
    by_cases hg : g
    · cases ho : oc name refs pls with
      | ok =>
        intro e he
        rw [show runBatches oc ((g, name, refs, pls) :: rest)
            = .print ("Uploading " ++ name ++ " data to queue...")
              :: .upload QUEUE_NAME refs pls
              :: .print ("Successfully uploaded " ++ name ++ " data.")
              :: runBatches oc rest
          from by simp [runBatches, hg, ho]] at he
        cases hr : runBatches oc rest with
        | nil =>
          rw [hr] at he
          simp only [List.dropLast, List.mem_cons, List.not_mem_nil, or_false] at he
          rcases he with h | h
          · rw [h]; exact isErrPrint_uploading name
          · rw [h]; rfl
        | cons x xs =>
          rw [hr, List.dropLast_cons₂, List.dropLast_cons₂, List.dropLast_cons₂] at he
          simp only [List.mem_cons] at he
          rcases he with h | h | h | h
          · rw [h]; exact isErrPrint_uploading name
          · rw [h]; rfl
          · rw [h]; exact isErrPrint_success name
          · exact ih e (by rw [hr]; exact h)
      | valueError m =>
        intro e he
        rw [show runBatches oc ((g, name, refs, pls) :: rest)
            = [.print ("Uploading " ++ name ++ " data to queue..."),
               .upload QUEUE_NAME refs pls,
               .print ("A value error occurred: " ++ m)]
          from by simp [runBatches, hg, ho]] at he
        simp only [List.dropLast, List.mem_cons, List.not_mem_nil, or_false] at he
        rcases he with h | h
        · rw [h]; exact isErrPrint_uploading name
        · rw [h]; rfl
      | typeError m =>
        intro e he
        rw [show runBatches oc ((g, name, refs, pls) :: rest)
            = [.print ("Uploading " ++ name ++ " data to queue..."),
               .upload QUEUE_NAME refs pls,
               .print ("A type error occurred: " ++ m)]
          from by simp [runBatches, hg, ho]] at he
        simp only [List.dropLast, List.mem_cons, List.not_mem_nil, or_false] at he
        rcases he with h | h
        · rw [h]; exact isErrPrint_uploading name
        · rw [h]; rfl
    · intro e he
      rw [show runBatches oc ((g, name, refs, pls) :: rest)
          = .print ("No data to upload for " ++ name ++ " data.") :: runBatches oc rest
        from by simp [runBatches, hg]] at he
      cases hr : runBatches oc rest with
      | nil => rw [hr] at he; simp [List.dropLast] at he
      | cons x xs =>
        rw [hr, List.dropLast_cons₂] at he
        simp only [List.mem_cons] at he
        rcases he with h | h
        · rw [h]; exact isErrPrint_nodata name
        · exact ih e (by rw [hr]; exact h)

theorem runBatches_first_error_logged
    (oc : String → List String → List String → UploadOutcome) :
    ∀ (bs1 : List (Bool × String × List String × List String))
      (n : String) (refs pls : List String)
      (bs2 : List (Bool × String × List String × List String)) (ef : UpEffect),
      (∀ b ∈ bs1, b.1 = true → oc b.2.1 b.2.2.1 b.2.2.2 = .ok) →
      errEffect (oc n refs pls) = some ef →
      ef ∈ runBatches oc (bs1 ++ (true, n, refs, pls) :: bs2) := by
  intro bs1
  induction bs1 with
  | nil =>
    intro n refs pls bs2 ef hok herr
    cases ho : oc n refs pls with
    | ok => rw [ho] at herr; simp [errEffect] at herr
    | valueError m =>
      rw [ho] at herr
      simp only [errEffect, Option.some.injEq] at herr
      simp [runBatches, ho, ← herr]
    | typeError m =>
      rw [ho] at herr
      simp only [errEffect, Option.some.injEq] at herr
      simp [runBatches, ho, ← herr]
  | cons b rest ih =>
    intro n refs pls bs2 ef hok herr
    obtain ⟨g, nm, rf, pl⟩ := b
    by_cases hg : g
    · have hbok : oc nm rf pl = .ok := hok (g, nm, rf, pl) (by simp) (by simpa using hg)
      have hmem := ih n refs pls bs2 ef (fun b hb hbt => hok b (by simp [hb]) hbt) herr
      simp [runBatches, hg, hbok, hmem]
    · have hmem := ih n refs pls bs2 ef (fun b hb hbt => hok b (by simp [hb]) hbt) herr
      simp [runBatches, hg, hmem]

/-- C1 as amended: a `ValueError`/`TypeError` raised while uploading a batch
is caught and logged once all preceding batches succeeded (the error print
appears among the effects), but the remaining batches are NOT attempted: an
error print is never followed by any further effect — it can only be the
last effect of `upload_to_queue`. -/
theorem upload_to_queue_error_stops_batches
    (oc : String → List String → List String → UploadOutcome)
    (md5hex : String → String) (a d w : List ChangeRecord) :
    (∀ e ∈ (upload_to_queue oc md5hex a d w).dropLast, isErrPrint e = false) ∧
    (∀ bs1 n refs pls bs2 ef,
      uploadBatches md5hex a d w = bs1 ++ (true, n, refs, pls) :: bs2 →
      (∀ b ∈ bs1, b.1 = true → oc b.2.1 b.2.2.1 b.2.2.2 = .ok) →
      errEffect (oc n refs pls) = some ef →
      ef ∈ upload_to_queue oc md5hex a d w) := by
  constructor
  · exact runBatches_err_last oc (uploadBatches md5hex a d w)
  · intro bs1 n refs pls bs2 ef hsplit hok herr
    unfold upload_to_queue
    rw [hsplit]
    exact runBatches_first_error_logged oc bs1 n refs pls bs2 ef hok herr

/-- Witness for `upload_to_queue_error_stops_batches`. -/
theorem upload_to_queue_error_stops_batches_witness :
    isErrPrint (UpEffect.print "Uploading Godkend data to queue...") = false :=
  (upload_to_queue_error_stops_batches (fun _ _ _ => .ok) (fun _ => "abcd1234")
      [ChangeRecord.mk "1" "s1" "v1" "VENTER"] [] []).1
    (UpEffect.print "Uploading Godkend data to queue...") (by decide)

/-- C1 counterexample: with all three directive lists non-empty and the
Godkend batch raising a `ValueError`, `upload_to_queue` logs the error but
attempts neither the Slet nor the Vent batch — only one upload call happens,
contradicting the claim that the remaining batches are still attempted. -/
theorem upload_to_queue_batch_failure_counterexample :
    upload_to_queue
        (fun name _ _ => if name == "Godkend" then UploadOutcome.valueError "boom" else .ok)
        (fun _ => "abcd1234")
        [ChangeRecord.mk "1" "s1" "v1" "VENTER"]
        [ChangeRecord.mk "2" "s2" "v2" "VENTER"]
        [ChangeRecord.mk "3" "s3" "v3" "GODKENDT"]
      = [.print "Uploading Godkend data to queue...",
         .upload QUEUE_NAME ["Godkend_abcd1234"]
           ["\x7b\"Instregnr\": \"1\", \"systemNavn\": \"s1\", \"serviceNavn\": \"v1\", \"status\": \"VENTER\"\x7d"],
         .print "A value error occurred: boom"] ∧
    (upload_to_queue
        (fun name _ _ => if name == "Godkend" then UploadOutcome.valueError "boom" else .ok)
        (fun _ => "abcd1234")
        [ChangeRecord.mk "1" "s1" "v1" "VENTER"]
        [ChangeRecord.mk "2" "s2" "v2" "VENTER"]
        [ChangeRecord.mk "3" "s3" "v3" "GODKENDT"]).countP
      (fun e => match e with | .upload _ _ _ => true | _ => false) = 1 := by
  constructor <;> decide

theorem taggedUpTo_length (l : List String) (k : Nat) : (taggedUpTo l k).length = k := by
  simp [taggedUpTo]

theorem getD_mem_of_lt (l : List String) (i : Nat) (h : i < l.length) : l.getD i "" ∈ l := by
  rw [List.getD_eq_getElem l "" h]
  exact List.getElem_mem h

theorem hasLater_of_eq_later (l : List String) (i k : Nat) (hik : i < k) (hk : k < l.length)
    (heq : l.getD k "" = l.getD i "") : hasLater l i = true := by
  unfold hasLater
  rw [List.elem_iff]
  rw [← heq]
  have hdrop : k - (i + 1) < (l.drop (i + 1)).length := by
    rw [List.length_drop]
    omega
  have hget : (l.drop (i + 1))[k - (i + 1)] = l.getD k "" := by
    rw [List.getElem_drop]
    rw [List.getD_eq_getElem l "" hk]
    congr 1
    omega
  rw [← hget]
  exact List.getElem_mem hdrop

theorem taggedUpTo_count_zero (l : List String) (hshape : ∀ s ∈ l, underscores s = 1)
    (k : Nat) (hk : k < l.length) :
    (taggedUpTo l k).count (l.getD k "") = 0 := by
  apply List.count_eq_zero_of_not_mem
  intro hmem
  unfold taggedUpTo at hmem
  obtain ⟨i, hi, hfi⟩ := List.mem_map.mp hmem
  have hik : i < k := List.mem_range.mp hi
  have hil : i < l.length := lt_trans hik hk
  by_cases hl : hasLater l i = true
  · rw [if_pos hl] at hfi
    have h2 : underscores (l.getD i "" ++ "_" ++ natStr i) = 2 := by
      rw [underscores_tag, hshape _ (getD_mem_of_lt l i hil)]
    rw [hfi] at h2
    rw [hshape _ (getD_mem_of_lt l k hk)] at h2
    omega
  · rw [if_neg hl] at hfi
    exact hl (hasLater_of_eq_later l i k hik hk hfi.symm)

theorem disambiguate_invariant (l : List String) (hshape : ∀ s ∈ l, underscores s = 1) :
    ∀ k, k ≤ l.length →
      (List.range k).foldl
        (fun acc i =>
          let r := acc.getD i ""
          if 1 < acc.count r then acc.set i (r ++ "_" ++ natStr i) else acc) l
      = taggedUpTo l k ++ l.drop k := by
  intro k
  induction k with
  | zero => intro _; simp [taggedUpTo]
  | succ n ih =>
    intro hk
    have hlt : n < l.length := hk
    have hn : n ≤ l.length := le_of_lt hlt
    rw [List.range_succ, List.foldl_concat, ih hn]
    have hdrop : l.drop n = l.getD n "" :: l.drop (n + 1) := by
      rw [List.drop_eq_getElem_cons hlt, List.getD_eq_getElem l "" hlt]
    have hr : (taggedUpTo l n ++ l.drop n).getD n "" = l.getD n "" := by
      rw [List.getD_append_right _ _ _ _ (by rw [taggedUpTo_length])]
      rw [taggedUpTo_length, Nat.sub_self, hdrop]
      rfl
    have hcount : (taggedUpTo l n ++ l.drop n).count (l.getD n "")
        = 1 + (l.drop (n + 1)).count (l.getD n "") := by
      rw [List.count_append, taggedUpTo_count_zero l hshape n hlt, hdrop,
        List.count_cons_self]
      omega
    have hsucc : taggedUpTo l (n + 1)
        = taggedUpTo l n ++ [if hasLater l n then l.getD n "" ++ "_" ++ natStr n
            else l.getD n ""] := by
      unfold taggedUpTo
      rw [List.range_succ, List.map_append]
      rfl
    simp only [hr]
    by_cases hl : hasLater l n = true
    · have hpos : 0 < (l.drop (n + 1)).count (l.getD n "") := by
        rw [List.count_pos_iff]
        unfold hasLater at hl
        exact List.elem_iff.mp hl
      rw [if_pos (by omega : 1 < (taggedUpTo l n ++ l.drop n).count (l.getD n ""))]
      rw [List.set_append]
      rw [if_neg (by rw [taggedUpTo_length]; omega)]
      rw [taggedUpTo_length, Nat.sub_self, hdrop, List.set_cons_zero]
      rw [hsucc, if_pos hl, List.append_assoc]
      rfl
    · have hzero : (l.drop (n + 1)).count (l.getD n "") = 0 := by
        apply List.count_eq_zero_of_not_mem
        intro hmem
        unfold hasLater at hl
        exact hl (List.elem_iff.mpr hmem)
      rw [if_neg (by omega : ¬ 1 < (taggedUpTo l n ++ l.drop n).count (l.getD n ""))]
      rw [hsucc, if_neg hl, List.append_assoc, hdrop]
      rfl

theorem disambiguate_eq_tagSpec (l : List String)
    (hshape : ∀ s ∈ l, underscores s = 1) : disambiguate l = tagSpec l := by
  have h := disambiguate_invariant l hshape l.length le_rfl
  unfold disambiguate tagSpec
  rw [h, List.drop_eq_nil_of_le le_rfl, List.append_nil]

theorem underscores_append (s t : String) :
    underscores (s ++ t) = underscores s + underscores t := by
  simp [underscores, String.data_append, List.count_append]

theorem tagSpec_nodup (l : List String) (hshape : ∀ s ∈ l, underscores s = 1) :
    (tagSpec l).Nodup := by
  unfold tagSpec taggedUpTo
  apply List.Nodup.map_on _ (List.nodup_range l.length)
  intro i hi j hj hfij
  have hil : i < l.length := List.mem_range.mp hi
  have hjl : j < l.length := List.mem_range.mp hj
  by_contra hne
  have hcore : ∀ a b : Nat, a < b → b < l.length →
      (if hasLater l a then l.getD a "" ++ "_" ++ natStr a else l.getD a "")
        = (if hasLater l b then l.getD b "" ++ "_" ++ natStr b else l.getD b "") →
      False := by
    intro a b hab hbl hfab
    have hal : a < l.length := lt_trans hab hbl
    by_cases ha : hasLater l a = true
    · by_cases hb : hasLater l b = true
      · rw [if_pos ha, if_pos hb] at hfab
        obtain ⟨-, hab2⟩ := tag_cancel hfab
        omega
      · rw [if_pos ha, if_neg hb] at hfab
        have h2 : underscores (l.getD a "" ++ "_" ++ natStr a) = 2 := by
          rw [underscores_tag, hshape _ (getD_mem_of_lt l a hal)]
        rw [hfab, hshape _ (getD_mem_of_lt l b hbl)] at h2
        omega
    · rw [if_neg ha] at hfab
      by_cases hb : hasLater l b = true
      · rw [if_pos hb] at hfab
        have h2 : underscores (l.getD b "" ++ "_" ++ natStr b) = 2 := by
          rw [underscores_tag, hshape _ (getD_mem_of_lt l b hbl)]
        rw [← hfab, hshape _ (getD_mem_of_lt l a hal)] at h2
        omega
      · rw [if_neg hb] at hfab
        exact absurd (hasLater_of_eq_later l a b hab hbl hfab.symm)
          (by simp [ha])
  rcases lt_trichotomy i j with h | h | h
  · exact hcore i j h hjl hfij
  · exact hne h
  · exact hcore j i h hil hfij.symm

theorem hasLater_false_of_nodup (l : List String) (h : l.Nodup) (i : Nat) :
    hasLater l i = false := by
  by_cases hil : i < l.length
  · cases hc : hasLater l i with
    | false => rfl
    | true =>
      exfalso
      unfold hasLater at hc
      have hmem : l.getD i "" ∈ l.drop (i + 1) := List.elem_iff.mp hc
      have hsplit := List.take_append_drop (i + 1) l
      rw [← hsplit] at h
      obtain ⟨-, -, hdisj⟩ := List.nodup_append.mp h
      apply hdisj _ hmem
      have htl : i < (l.take (i + 1)).length := by
        rw [List.length_take]
        omega
      have : (l.take (i + 1))[i] = l.getD i "" := by
        rw [List.getElem_take, List.getD_eq_getElem l "" hil]
      rw [← this]
      exact List.getElem_mem htl
  · cases hc : hasLater l i with
    | false => rfl
    | true =>
      exfalso
      unfold hasLater at hc
      rw [List.drop_eq_nil_of_le (by omega)] at hc
      simp at hc

theorem tagSpec_of_nodup (l : List String) (h : l.Nodup) : tagSpec l = l := by
  unfold tagSpec taggedUpTo
  apply List.ext_getElem
  · simp
  · intro n h1 h2
    have hn : n < l.length := by simpa using h1
    rw [List.getElem_map]
    rw [List.getElem_range]
    rw [hasLater_false_of_nodup l h n]
    simp only [Bool.false_eq_true, if_false]
    exact List.getD_eq_getElem l "" hn

theorem generate_short_hash_underscores (md5hex : String → String)
    (hmd5 : ∀ s, ('_' : Char) ∉ (md5hex s).data) (data : List (String × String)) :
    underscores (generate_short_hash md5hex data) = 0 := by
  unfold generate_short_hash underscores
  apply List.count_eq_zero_of_not_mem
  intro hmem
  exact hmd5 (jsonDumpsSorted data)
    ((List.take_sublist 8 (md5hex (jsonDumpsSorted data)).data).mem hmem)

theorem makeReference_underscores (md5hex : String → String)
    (hmd5 : ∀ s, ('_' : Char) ∉ (md5hex s).data) (action : String)
    (haction : underscores action = 0) (c : ChangeRecord) :
    underscores (makeReference md5hex action c) = 1 := by
  unfold makeReference
  rw [underscores_append, underscores_append, haction,
    generate_short_hash_underscores md5hex hmd5]
  rfl

theorem initialReferences_shape (md5hex : String → String)
    (hmd5 : ∀ s, ('_' : Char) ∉ (md5hex s).data) (a d w : List ChangeRecord) :
    ∀ s ∈ initialReferences md5hex a d w, underscores s = 1 := by
  intro s hs
  unfold initialReferences at hs
  rw [List.mem_append, List.mem_append] at hs
  rcases hs with (hs | hs) | hs <;> obtain ⟨c, -, hc⟩ := List.mem_map.mp hs <;> rw [← hc]
  · exact makeReference_underscores md5hex hmd5 "Godkend" (by decide) c
  · exact makeReference_underscores md5hex hmd5 "Slet" (by decide) c
  · exact makeReference_underscores md5hex hmd5 "Vent" (by decide) c

/-- C4 as amended: for a digest function producing underscore-free output
(as the MD5 hex digest does), the references handed to the queue are exactly
`tagSpec` of the initial references — the positional disambiguator `_<index>`
is appended to every repeated occurrence EXCEPT the last occurrence of each
repeated value, which keeps its bare reference — and the final references are
pairwise distinct, so no two colliding directives share a reference. -/
theorem finalReferences_disambiguated (md5hex : String → String)
    (hmd5 : ∀ s, ('_' : Char) ∉ (md5hex s).data) (a d w : List ChangeRecord) :
    finalReferences md5hex a d w = tagSpec (initialReferences md5hex a d w) ∧
    (finalReferences md5hex a d w).Nodup := by
  have hshape := initialReferences_shape md5hex hmd5 a d w
  by_cases hnd : (initialReferences md5hex a d w).Nodup
  · rw [show finalReferences md5hex a d w = initialReferences md5hex a d w
      from by simp [finalReferences, hnd]]
    exact ⟨(tagSpec_of_nodup _ hnd).symm, hnd⟩
  · rw [show finalReferences md5hex a d w = disambiguate (initialReferences md5hex a d w)
      from by simp [finalReferences, hnd]]
    rw [disambiguate_eq_tagSpec _ hshape]
    exact ⟨rfl, tagSpec_nodup _ hshape⟩

/-- Witness for `finalReferences_disambiguated`. -/
theorem finalReferences_disambiguated_witness :
    finalReferences (fun _ => "abcd1234")
        [ChangeRecord.mk "1" "s" "v" "VENTER", ChangeRecord.mk "1" "s" "v" "VENTER"] [] []
      = tagSpec (initialReferences (fun _ => "abcd1234")
        [ChangeRecord.mk "1" "s" "v" "VENTER", ChangeRecord.mk "1" "s" "v" "VENTER"] [] []) ∧
    (finalReferences (fun _ => "abcd1234")
        [ChangeRecord.mk "1" "s" "v" "VENTER", ChangeRecord.mk "1" "s" "v" "VENTER"] [] []).Nodup :=
  finalReferences_disambiguated (fun _ => "abcd1234")
    (fun _ => show ('_' : Char) ∉ ("abcd1234" : String).data by decide)
    [ChangeRecord.mk "1" "s" "v" "VENTER", ChangeRecord.mk "1" "s" "v" "VENTER"] [] []

/-- C4 counterexample: two identical approve directives collide; the
disambiguation loop rewrites only the first occurrence (`…_0`) while the
second — also a repeated occurrence — keeps the bare reference, which equals
neither `…_0` nor `…_1`: the claim that the `_<index>` disambiguator is
appended to EVERY repeated occurrence is false (pairwise distinctness still
holds). -/
theorem disambiguate_last_occurrence_kept :
    finalReferences (fun _ => "abcd1234")
        [ChangeRecord.mk "1" "s" "v" "VENTER", ChangeRecord.mk "1" "s" "v" "VENTER"] [] []
      = ["Godkend_abcd1234_0", "Godkend_abcd1234"] ∧
    (finalReferences (fun _ => "abcd1234")
        [ChangeRecord.mk "1" "s" "v" "VENTER", ChangeRecord.mk "1" "s" "v" "VENTER"] [] []).getD 1 ""
      = "Godkend_abcd1234" ∧
    "Godkend_abcd1234" ≠ "Godkend_abcd1234" ++ "_" ++ natStr 1 := by
  refine ⟨?_, ?_, ?_⟩ <;> decide
